import Mathlib

/-
Shallow embedding of the URLPattern router (src/router.ts).

The router keeps three tables (a one-shot per-method resolution cache, a
static table method -> pathname -> route, and a per-method ordered list of
dynamic routes) plus an ordered middleware table.  `matchRoute` embeds the
source's `match` method, `runNext` embeds the closure produced by
`composeMiddleware`, `handleRoute` embeds `#handleRoute`, and `handle`
embeds the dispatcher `handle` including its URL regex.

JavaScript objects are modelled as association lists with in-place update
(`aset` replaces the value at an existing key and appends a new key, matching
property assignment).  The mutable per-request context object is modelled as
a single threaded cell of type `Ctx`; `Object.assign(context, ...)` becomes
`ctxAssign`/`aset` on that cell.  Handler invocations additionally record the
invoked handler's numeric id in a trace so that "handler X ran" is an
observable fact.  Middleware bodies are deep-embedded as `MWAct` (return a
response without calling next, call next once and return its result, or call
next twice), which is what the claims quantify over.  The URLPattern pattern
matcher is the spec's external collaborator; it is modelled by `patternExec`
for the literal-and-`:param` template subset exercised here.
-/

namespace URLRouter

/-- Response value: body and status, modelling the parts of `Response` the
router constructs and the claims observe.  `new Response()` is `emptyResp`. -/
structure Resp where
  body : String
  status : Nat
deriving DecidableEq, Repr

def emptyResp : Resp := ⟨"", 200⟩

/-- Association-list lookup, modelling JavaScript property read. -/
def alookup {α : Type} : List (String × α) → String → Option α
  | [], _ => none
  | (k0, v0) :: rest, k => if k0 = k then some v0 else alookup rest k

/-- Association-list update, modelling JavaScript property assignment:
replace the value at an existing key in place, append a fresh key. -/
def aset {α : Type} : List (String × α) → String → α → List (String × α)
  | [], k, v => [(k, v)]
  | (k0, v0) :: rest, k, v =>
      if k0 = k then (k, v) :: rest else (k0, v0) :: aset rest k v

/-- Two-level lookup `table?.[k1]?.[k2]`. -/
def alookup2 {α : Type} (t : List (String × List (String × α))) (k1 k2 : String) :
    Option α :=
  match alookup t k1 with
  | none => none
  | some inner => alookup inner k2

/-- Two-level update `table[k1][k2] = v`, creating `{ [k2]: v }` when the
outer key is absent (the `if (this.#staticRoutes[method])` branches). -/
def aset2 {α : Type} (t : List (String × List (String × α))) (k1 k2 : String)
    (v : α) : List (String × List (String × α)) :=
  match alookup t k1 with
  | some inner => aset t k1 (aset inner k2 v)
  | none => aset t k1 [(k2, v)]

/-- Values stored on the per-request context object: string route parameters
spread onto the context, the `params` map, the outer `next` of `#handleRoute`,
and the positional `next` capabilities bound by `composeMiddleware`. -/
inductive CtxVal
  | str (s : String)
  | pmap (ps : List (String × String))
  | nextOuter
  | nextAt (i : Nat)
deriving DecidableEq, Repr

/-- The caller-supplied context object, one mutable cell threaded through a
dispatch. -/
abbrev Ctx := List (String × CtxVal)

/-- Fold of property assignments, modelling `Object.assign(context, ...)`. -/
def ctxAssign (c : Ctx) (kvs : List (String × CtxVal)) : Ctx :=
  kvs.foldl (fun acc kv => aset acc kv.1 kv.2) c

/-- Model of the external URLPattern collaborator: it only carries the
pathname template it was compiled from. -/
structure URLPattern where
  pathname : String
deriving DecidableEq, Repr

/-- Split a character list at every slash (the segmentation both the matcher
model and nothing else uses). -/
def splitSlash : List Char → List (List Char)
  | [] => [[]]
  | c :: cs =>
      if c = '/' then [] :: splitSlash cs
      else
        match splitSlash cs with
        | seg :: segs => (c :: seg) :: segs
        | [] => [[c]]

/-- Segment-wise template matching for the URLPattern collaborator: a `:name`
segment captures one nonempty path segment, any other segment matches
literally.  This models `pattern.exec({ pathname }).pathname.groups` for the
template subset the development exercises; the spec treats the matcher as a
black box. -/
def segMatch : List (List Char) → List (List Char) → Option (List (String × String))
  | [], [] => some []
  | pseg :: ps, sseg :: ss =>
      match pseg with
      | ':' :: pname =>
          if sseg = [] then none
          else (segMatch ps ss).map
            (fun caps => (String.mk pname, String.mk sseg) :: caps)
      | _ =>
          if pseg = sseg then segMatch ps ss else none
  | _, _ => none

/-- `pattern.exec({ pathname: path })`, returning the named-capture map. -/
def patternExec (pat : URLPattern) (path : String) :
    Option (List (String × String)) :=
  segMatch (splitSlash pat.pathname.toList) (splitSlash path.toList)

/-- `pattern.test({ pathname: path })`. -/
def patternTest (pat : URLPattern) (path : String) : Bool :=
  (patternExec pat path).isSome

/-- Test of the classification regex `/\*|\/:/`: a star anywhere or the
two-character substring `/:`. -/
def hasDynTok : List Char → Bool
  | [] => false
  | '*' :: _ => true
  | '/' :: ':' :: _ => true
  | _ :: rest => hasDynTok rest

/-- Classification of `add`: `/\*|\/:/.test(path)` — the template is dynamic
when it contains `*` anywhere or the two-character substring `/:`. -/
def isDynamicPath (p : String) : Bool :=
  hasDynTok p.toList

/-- Deep-embedded behaviour of one middleware body: return an own response
without calling `next`, call `next` once and return its result, or call
`next` twice propagating the second result. -/
inductive MWAct
  | retOwn (r : Resp)
  | passThrough
  | doubleNext
deriving DecidableEq, Repr

/-- One middleware handler: an id (for the execution trace) and a body. -/
structure MW where
  id : Nat
  act : MWAct
deriving DecidableEq, Repr

/-- Terminal route handler: an id for the trace and a response function of
the captured parameter map (the handler reads `ctx.params`). -/
structure RouteHandler where
  id : Nat
  respond : List (String × String) → Resp

/-- The `StaticRoute` interface of the source: `middleware` is filled in by
`match` with the composed middleware chain. -/
structure StaticRouteData where
  method : String
  pathname : String
  handler : RouteHandler
  middleware : Option (List MW) := none

/-- The `DynamicRoute` interface: additionally a compiled pattern and the
most recently captured parameter map. -/
structure DynamicRouteData where
  method : String
  pathname : String
  handler : RouteHandler
  middleware : Option (List MW) := none
  pattern : URLPattern
  params : List (String × String)

/-- `type Route = StaticRoute | DynamicRoute` as a tagged union. -/
inductive Route
  | stat (r : StaticRouteData)
  | dyn (r : DynamicRouteData)

def Route.handlerOf : Route → RouteHandler
  | .stat r => r.handler
  | .dyn r => r.handler

def Route.middlewareOf : Route → Option (List MW)
  | .stat r => r.middleware
  | .dyn r => r.middleware

/-- `"params" in route ? route.params : {}`. -/
def Route.paramsOf : Route → List (String × String)
  | .stat _ => []
  | .dyn r => r.params

/-- Handler of the synthetic not-found route built by `match` (the id is a
model artefact naming that synthetic handler in traces). -/
def notFoundHandler : RouteHandler :=
  ⟨404, fun _ => ⟨"Not Found", 404⟩⟩

/-- The four private tables of the `Router` class. -/
structure RouterState where
  cachedRoutes : List (String × List (String × Route))
  dynamicRoutes : List (String × List DynamicRouteData)
  staticRoutes : List (String × List (String × StaticRouteData))
  middlewares : List (URLPattern × List MW)

def emptyRouter : RouterState := ⟨[], [], [], []⟩

/-- `add(method, path, handler)` for a single method string: classify the
template and store it in the static table (overwriting an identical template)
or push it onto the method's dynamic list. -/
def addRoute (s : RouterState) (method path : String) (handler : RouteHandler) :
    RouterState :=
  if !(isDynamicPath path) then
    let r : StaticRouteData :=
      { method := method, pathname := path, handler := handler }
    { s with staticRoutes := aset2 s.staticRoutes method path r }
  else
    let r : DynamicRouteData :=
      { method := method, pathname := path, handler := handler,
        pattern := ⟨path⟩, params := [] }
    { s with dynamicRoutes :=
        match alookup s.dynamicRoutes method with
        | some l => aset s.dynamicRoutes method (l ++ [r])
        | none => aset s.dynamicRoutes method [r] }

/-- Inner loop of `use`: append to the entry whose compiled pattern has the
identical pathname, else push a fresh entry at the end. -/
def addMW : List (URLPattern × List MW) → String → MW → List (URLPattern × List MW)
  | [], path, h => [(⟨path⟩, [h])]
  | (pat, hs) :: rest, path, h =>
      if pat.pathname = path then (pat, hs ++ [h]) :: rest
      else (pat, hs) :: addMW rest path h

/-- `use(path, handler)`. -/
def useMW (s : RouterState) (path : String) (h : MW) : RouterState :=
  { s with middlewares := addMW s.middlewares path h }

/-- Middleware selection loop of `match`: walk the middleware table in
registration order and concatenate the handler lists of every entry whose
pattern tests true against the path. -/
def collectMiddleware : List (URLPattern × List MW) → String → List MW
  | [], _ => []
  | (pat, hs) :: rest, path =>
      (if patternTest pat path then hs else []) ++ collectMiddleware rest path

/-- Dynamic lookup loop of `match`: the source iterates the method's dynamic
list from its tail (`for (let i = routes.length; i--;)`), so this scans the
reversed list, and on the first hit mutates that route in place with the
captured params and the composed middleware.  Returns the mutated route and
the updated (still reversed) list. -/
def scanDynRev (coll : List MW) :
    List DynamicRouteData → String →
      Option (DynamicRouteData × List DynamicRouteData)
  | [], _ => none
  | r :: rest, path =>
      match patternExec r.pattern path with
      | some ps =>
          let r2 := { r with middleware := some coll, params := ps }
          some (r2, r2 :: rest)
      | none =>
          (scanDynRev coll rest path).map (fun pr => (pr.1, r :: pr.2))

/-- `match(method, path)`: cache lookup, middleware collection, static
lookup, dynamic scan, synthetic not-found fallback.  Returns the route the
produced closure dispatches on, together with the updated router state (the
source mutates the matched route object and overwrites the per-method cache
record with `{ [path]: route }`). -/
def matchRoute (s : RouterState) (method path : String) : Route × RouterState :=
  match alookup2 s.cachedRoutes method path with
  | some cached => (cached, s)
  | none =>
    let coll := collectMiddleware s.middlewares path
    match alookup2 s.staticRoutes method path with
    | some sr =>
      let sr2 := { sr with middleware := some coll }
      (Route.stat sr2,
       { s with
          staticRoutes := aset2 s.staticRoutes method path sr2,
          cachedRoutes := aset s.cachedRoutes method [(path, Route.stat sr2)] })
    | none =>
      match scanDynRev coll ((alookup s.dynamicRoutes method).getD []).reverse path with
      | some (r2, rev2) =>
        (Route.dyn r2,
         { s with
            dynamicRoutes := aset s.dynamicRoutes method rev2.reverse,
            cachedRoutes := aset s.cachedRoutes method [(path, Route.dyn r2)] })
      | none =>
        let nf : StaticRouteData :=
          { method := method, pathname := path, handler := notFoundHandler,
            middleware := some coll }
        (Route.stat nf,
         { s with cachedRoutes := aset s.cachedRoutes method [(path, Route.stat nf)] })

/-- Execution state of one dispatch: the threaded context cell and the trace
of invoked handler ids. -/
structure ExecSt where
  ctx : Ctx
  trace : List Nat
deriving DecidableEq, Repr

/-- Result of one `next(i)` invocation: a response together with the current
value of the shared `index` variable, or a rejection. -/
inductive ChainRes
  | ok (r : Resp) (idx : Int)
  | fail (msg : String)
deriving DecidableEq, Repr

def dupNextMsg : String := "next() called multiple times"

/-- The recursive `next` of `composeMiddleware`: `index` is the shared
mutable variable (initially -1) threaded in and returned inside `ChainRes.ok`;
a call with `i <= index` rejects; otherwise the middleware at `i` — if any —
runs with `context.next` rebound to position `i + 1`.  The structural fuel is
a termination device only; every theorem below supplies enough fuel that the
fuel-exhaustion branch is unreachable. -/
def runNext (mws : List MW) : Nat → Int → Nat → ExecSt → ChainRes × ExecSt
  | 0, _, _, st => (ChainRes.fail "out of fuel", st)
  | fuel + 1, index, i, st =>
    if (i : Int) ≤ index then (ChainRes.fail dupNextMsg, st)
    else
      match mws[i]? with
      | none => (ChainRes.ok emptyResp (i : Int), st)
      | some mw =>
        let st1 : ExecSt :=
          ⟨aset st.ctx "next" (CtxVal.nextAt (i + 1)), st.trace ++ [mw.id]⟩
        match mw.act with
        | MWAct.retOwn r => (ChainRes.ok r (i : Int), st1)
        | MWAct.passThrough => runNext mws fuel i (i + 1) st1
        | MWAct.doubleNext =>
          match runNext mws fuel i (i + 1) st1 with
          | (ChainRes.ok _ idx1, st2) => runNext mws fuel idx1 (i + 1) st2
          | (ChainRes.fail e, st2) => (ChainRes.fail e, st2)

/-- `#handleRoute(request, route, context)`: when the route carries a
composed middleware chain, first assign `{ next }` and the spread params onto
the context and run the chain; then — unconditionally, whatever response the
chain produced — assign `{ params }` and run the terminal handler, whose
response is the dispatch result.  A chain rejection propagates and skips the
terminal handler. -/
def handleRoute (route : Route) (ctx0 : Ctx) :
    (Except String Resp) × Ctx × List Nat :=
  let params := route.paramsOf
  match route.middlewareOf with
  | some mws =>
    let ctx1 := ctxAssign ctx0
      (("next", CtxVal.nextOuter) :: params.map (fun kv => (kv.1, CtxVal.str kv.2)))
    match runNext mws (mws.length + 2) (-1) 0 ⟨ctx1, []⟩ with
    | (ChainRes.fail e, st) => (Except.error e, st.ctx, st.trace)
    | (ChainRes.ok _ _, st) =>
      (Except.ok (route.handlerOf.respond params),
       aset st.ctx "params" (CtxVal.pmap params),
       st.trace ++ [route.handlerOf.id])
  | none =>
    (Except.ok (route.handlerOf.respond params),
     aset ctx0 "params" (CtxVal.pmap params),
     [route.handlerOf.id])

/-- Literal prefix chomp over character lists (one regex alternative). -/
def chompLit : List Char → List Char → Option (List Char)
  | [], cs => some cs
  | p :: ps, c :: cs => if c = p then chompLit ps cs else none
  | _ :: _, [] => none

/-- The `^https?:\/\/` part of the dispatcher's URL regex: the two scheme
alternatives are mutually exclusive on their fifth character. -/
def schemeRest (url : List Char) : Option (List Char) :=
  match chompLit ("http://".toList) url with
  | some r => some r
  | none => chompLit ("https://".toList) url

/-- Character-level embedding of `url.match(/^https?:\/\/[^/]+(\/[^?]*)/)`,
returning the first capture group or the empty list when the regex does not
match: scheme, then a nonempty run of non-slash characters (the authority),
then a slash followed by the maximal run of non-question-mark characters. -/
def extractCore (r : List Char) : List Char :=
  match r.takeWhile (fun c => c != '/'), r.dropWhile (fun c => c != '/') with
  | [], _ => []
  | _ :: _, '/' :: tail2 => '/' :: tail2.takeWhile (fun c => c != '?')
  | _ :: _, _ => []

def extractChars (url : List Char) : List Char :=
  match schemeRest url with
  | none => []
  | some r => extractCore r

/-- Pathname extraction of `handle`. -/
def extractPathname (url : String) : String :=
  ⟨extractChars url.toList⟩

/-- The request fields the dispatcher reads. -/
structure Request where
  method : String
  url : String

/-- `handle(req, ctx)`: extract method and pathname, resolve through `match`
and invoke the produced closure on the request context. -/
def handle (s : RouterState) (req : Request) (ctx : Ctx) :
    ((Except String Resp) × Ctx × List Nat) × RouterState :=
  let pathname := extractPathname req.url
  let (route, s2) := matchRoute s req.method pathname
  (handleRoute route ctx, s2)

/-- Boolean test used in hypotheses: the middleware body calls `next` exactly
once and returns its result. -/
def mwIsPass (mw : MW) : Bool :=
  match mw.act with
  | MWAct.passThrough => true
  | _ => false

/-- Left fold of single-method `add` registrations, for quantifying over
arbitrary registration sequences. -/
def applyAdds (s : RouterState) (ops : List (String × String × RouteHandler)) :
    RouterState :=
  ops.foldl (fun acc op => addRoute acc op.1 op.2.1 op.2.2) s

/-- Concrete terminal handler used in the short-circuit scenario. -/
def c1term : RouteHandler := ⟨1, fun _ => ⟨"from terminal", 200⟩⟩

/-- Concrete middleware that returns its own response and never calls next. -/
def c1mw : MW := ⟨10, MWAct.retOwn ⟨"from middleware", 200⟩⟩

/-- Router with a static GET route for the root and one short-circuiting
middleware registered on the root pattern. -/
def c1router : RouterState := useMW (addRoute emptyRouter "GET" "/" c1term) "/" c1mw

/-- Concrete handler for the 404-versus-405 scenario. -/
def c2handler : RouteHandler := ⟨3, fun _ => ⟨"X", 200⟩⟩

/-- Router where only GET /x is registered; a POST dispatch of /x finds no
static route and the POST method has no dynamic routes at all. -/
def c2router : RouterState := addRoute emptyRouter "GET" "/x" c2handler

/-- Concrete handlers for the duplicate-next scenario. -/
def c4term : RouteHandler := ⟨2, fun _ => ⟨"terminal", 200⟩⟩

def c4mwPass : MW := ⟨20, MWAct.passThrough⟩

def c4mwDup : MW := ⟨21, MWAct.doubleNext⟩

/-- Resolved route whose chain holds a well-behaved middleware followed by
one that invokes its next capability twice. -/
def c4route : Route :=
  Route.stat ⟨"GET", "/", c4term, some [c4mwPass, c4mwDup]⟩

/-- Terminal handler of the `GET /contacts/:name` scenario: reads the `name`
capture and answers `Contact: {name}`. -/
def contactHandler : RouteHandler :=
  ⟨5, fun ps => ⟨"Contact: " ++ (alookup ps "name").getD "", 200⟩⟩

/-- Router with the single dynamic route `GET /contacts/:name`. -/
def c5router : RouterState :=
  addRoute emptyRouter "GET" "/contacts/:name" contactHandler

/-- The dynamic route value that `addRoute` stores for the contacts
template. -/
def c5dynRoute : DynamicRouteData :=
  { method := "GET", pathname := "/contacts/:name", handler := contactHandler,
    pattern := ⟨"/contacts/:name"⟩, params := [] }

/-- Concrete handlers and middleware for the ordering scenario. -/
def c6term : RouteHandler := ⟨6, fun _ => ⟨"six", 200⟩⟩

def c6mw1 : MW := ⟨60, MWAct.passThrough⟩

def c6mw2 : MW := ⟨61, MWAct.passThrough⟩

def c6mw3 : MW := ⟨62, MWAct.passThrough⟩

/-- Router with two middleware handlers appended under the pattern `/a`, one
under `/b`, and a static route at `GET /a`: resolving `/a` must include both
`/a` handlers in append order and exclude the `/b` handler. -/
def c6router : RouterState :=
  addRoute
    (useMW (useMW (useMW emptyRouter "/a" c6mw1) "/b" c6mw3) "/a" c6mw2)
    "GET" "/a" c6term

/-- Concrete handlers for the last-registration-wins scenario. -/
def c7hOld : RouteHandler := ⟨70, fun _ => ⟨"old", 200⟩⟩

def c7hNew : RouteHandler := ⟨71, fun _ => ⟨"new", 200⟩⟩

def c7hOther : RouteHandler := ⟨72, fun _ => ⟨"other", 200⟩⟩

/-- Registrations made before the decisive `add`: an earlier handler at the
same template and an unrelated one. -/
def c7pre : List (String × String × RouteHandler) :=
  [("GET", "/a", c7hOld), ("GET", "/b", c7hOther)]

/-- Registrations made after the decisive `add`: other methods, other
templates, and a dynamic template, none at (GET, /a). -/
def c7post : List (String × String × RouteHandler) :=
  [("POST", "/a", c7hOther), ("GET", "/c", c7hOther), ("GET", "/a/:x", c7hOther)]

/-- Route and context for the in-place context mutation scenario. -/
def c10route : Route :=
  Route.dyn
    { method := "GET", pathname := "/u/:who", handler := ⟨8, fun _ => ⟨"u", 200⟩⟩,
      middleware := some [⟨80, MWAct.passThrough⟩],
      pattern := ⟨"/u/:who"⟩, params := [("who", "ada")] }

/-- Caller-supplied context carrying an unrelated property. -/
def c10ctx : Ctx := [("user", CtxVal.str "u")]

theorem mwIsPass_iff (mw : MW) : mwIsPass mw = true ↔ mw.act = MWAct.passThrough := by
  cases h : mw.act <;> simp [mwIsPass, h]

theorem alookup_aset_self {α : Type} (l : List (String × α)) (k : String) (v : α) :
    alookup (aset l k v) k = some v := by
  induction l with
  | nil => simp [aset, alookup]
  | cons hd tl ih =>
    obtain ⟨k0, v0⟩ := hd
    by_cases h : k0 = k
    · simp [aset, h, alookup]
    · simp [aset, h, alookup, ih]

theorem alookup_aset_ne {α : Type} (l : List (String × α)) (k k2 : String) (v : α)
    (hne : k2 ≠ k) : alookup (aset l k v) k2 = alookup l k2 := by
  induction l with
  | nil => simp [aset, alookup, Ne.symm hne]
  | cons hd tl ih =>
    obtain ⟨k0, v0⟩ := hd
    by_cases h : k0 = k
    · subst h
      simp [aset, alookup, Ne.symm hne]
    · simp [aset, alookup, h, ih]

theorem aset_aset {α : Type} (l : List (String × α)) (k : String) (v w : α) :
    aset (aset l k v) k w = aset l k w := by
  induction l with
  | nil => simp [aset]
  | cons hd tl ih =>
    obtain ⟨k0, v0⟩ := hd
    by_cases h : k0 = k
    · simp [aset, h]
    · simp [aset, h, ih]

theorem alookup2_aset2_self {α : Type} (t : List (String × List (String × α)))
    (k1 k2 : String) (v : α) : alookup2 (aset2 t k1 k2 v) k1 k2 = some v := by
  unfold aset2
  cases h : alookup t k1 with
  | none => simp [alookup2, alookup_aset_self, alookup]
  | some inner => simp [alookup2, alookup_aset_self, alookup_aset_self inner k2 v]

theorem alookup2_aset2_ne {α : Type} (t : List (String × List (String × α)))
    (k1 k2 m p : String) (v : α) (hne : ¬(k1 = m ∧ k2 = p)) :
    alookup2 (aset2 t k1 k2 v) m p = alookup2 t m p := by
  by_cases h1 : k1 = m
  · subst h1
    have h2 : k2 ≠ p := fun h => hne ⟨rfl, h⟩
    unfold aset2
    cases h : alookup t k1 with
    | none =>
      simp [alookup2, alookup_aset_self, alookup, h2, h]
    | some inner =>
      simp [alookup2, alookup_aset_self, alookup_aset_ne inner k2 p v (Ne.symm h2), h]
  · unfold aset2
    cases h : alookup t k1 with
    | none => simp [alookup2, alookup_aset_ne _ _ _ _ (fun hh : m = k1 => h1 hh.symm)]
    | some inner => simp [alookup2, alookup_aset_ne _ _ _ _ (fun hh : m = k1 => h1 hh.symm)]

theorem collectMiddleware_eq (entries : List (URLPattern × List MW)) (p : String) :
    collectMiddleware entries p =
      ((entries.filter (fun e => patternTest e.1 p)).map (fun e => e.2)).flatten := by
  induction entries with
  | nil => simp [collectMiddleware]
  | cons e rest ih =>
    obtain ⟨pat, hs⟩ := e
    by_cases h : patternTest pat p
    · simp [collectMiddleware, h, List.filter_cons, ih]
    · simp [collectMiddleware, h, List.filter_cons, ih]

theorem matchRoute_hit {s : RouterState} {m p : String} {r : Route}
    (h : alookup2 s.cachedRoutes m p = some r) : matchRoute s m p = (r, s) := by
  simp [matchRoute, h]

theorem matchRoute_static {s : RouterState} {m p : String} {sr : StaticRouteData}
    (hc : alookup2 s.cachedRoutes m p = none)
    (hs : alookup2 s.staticRoutes m p = some sr) :
    matchRoute s m p =
      (Route.stat { sr with middleware := some (collectMiddleware s.middlewares p) },
       { s with
          staticRoutes := (aset2 s.staticRoutes m p
            { sr with middleware := some (collectMiddleware s.middlewares p) }),
          cachedRoutes := (aset s.cachedRoutes m
            [(p, Route.stat { sr with middleware := some (collectMiddleware s.middlewares p) })]) }) := by
  simp [matchRoute, hc, hs]

theorem matchRoute_dynamic {s : RouterState} {m p : String}
    {r2 : DynamicRouteData} {rev2 : List DynamicRouteData}
    (hc : alookup2 s.cachedRoutes m p = none)
    (hs : alookup2 s.staticRoutes m p = none)
    (hscan : scanDynRev (collectMiddleware s.middlewares p)
        ((alookup s.dynamicRoutes m).getD []).reverse p = some (r2, rev2)) :
    matchRoute s m p =
      (Route.dyn r2,
       { s with
          dynamicRoutes := aset s.dynamicRoutes m rev2.reverse,
          cachedRoutes := aset s.cachedRoutes m [(p, Route.dyn r2)] }) := by
  simp [matchRoute, hc, hs, hscan]

theorem matchRoute_notFound {s : RouterState} {m p : String}
    (hc : alookup2 s.cachedRoutes m p = none)
    (hs : alookup2 s.staticRoutes m p = none)
    (hscan : scanDynRev (collectMiddleware s.middlewares p)
        ((alookup s.dynamicRoutes m).getD []).reverse p = none) :
    matchRoute s m p =
      (Route.stat
        { method := m, pathname := p, handler := notFoundHandler,
          middleware := some (collectMiddleware s.middlewares p) },
       { s with cachedRoutes := (aset s.cachedRoutes m
          [(p, Route.stat
            { method := m, pathname := p, handler := notFoundHandler,
              middleware := some (collectMiddleware s.middlewares p) })]) }) := by
  simp [matchRoute, hc, hs, hscan]

theorem cacheAfterMiss {s : RouterState} {m p : String}
    (hc : alookup2 s.cachedRoutes m p = none) :
    alookup (matchRoute s m p).2.cachedRoutes m = some [(p, (matchRoute s m p).1)] := by
  cases hs : alookup2 s.staticRoutes m p with
  | some sr => rw [matchRoute_static hc hs]; exact alookup_aset_self ..
  | none =>
    cases hscan : scanDynRev (collectMiddleware s.middlewares p)
        ((alookup s.dynamicRoutes m).getD []).reverse p with
    | some pr =>
      obtain ⟨r2, rev2⟩ := pr
      rw [matchRoute_dynamic hc hs hscan]
      exact alookup_aset_self ..
    | none => rw [matchRoute_notFound hc hs hscan]; exact alookup_aset_self ..

theorem matchRoute_cachedAfter {s : RouterState} {m p : String}
    (hc : alookup2 s.cachedRoutes m p = none) :
    alookup2 (matchRoute s m p).2.cachedRoutes m p = some (matchRoute s m p).1 := by
  unfold alookup2
  rw [cacheAfterMiss hc]
  simp [alookup]

theorem matchRoute_twice (s : RouterState) (m p : String) :
    matchRoute (matchRoute s m p).2 m p = matchRoute s m p := by
  cases hc : alookup2 s.cachedRoutes m p with
  | some r =>
    have h1 : matchRoute s m p = (r, s) := matchRoute_hit hc
    rw [h1]
    exact matchRoute_hit hc
  | none =>
    have h2 := matchRoute_cachedAfter (s := s) (m := m) (p := p) hc
    exact matchRoute_hit h2

theorem drop_map_cons {α β : Type} (f : α → β) (l : List α) (i : Nat)
    (h : i < l.length) :
    List.drop i (List.map f l) = f l[i] :: List.drop (i + 1) (List.map f l) := by
  rw [List.drop_eq_getElem_cons (l := List.map f l) (by simpa using h)]
  simp

theorem runNext_pass (mws : List MW) :
    ∀ (fuel i : Nat) (index : Int) (st : ExecSt),
      (∀ mw ∈ mws.drop i, mw.act = MWAct.passThrough) →
      index < (i : Int) → i ≤ mws.length → mws.length < fuel + i →
      runNext mws fuel index i st =
        (ChainRes.ok emptyResp (mws.length : Int),
         ⟨if i < mws.length then aset st.ctx "next" (CtxVal.nextAt mws.length) else st.ctx,
          st.trace ++ (mws.drop i).map (fun mw => mw.id)⟩) := by
  intro fuel
  induction fuel with
  | zero =>
    intro i index st hall hidx hle hf
    omega
  | succ f ih =>
    intro i index st hall hidx hle hf
    have hcond : ¬ ((i : Int) ≤ index) := by omega
    rcases Nat.lt_or_ge i mws.length with hlt | hge
    · have hget : mws[i]? = some mws[i] := List.getElem?_eq_getElem hlt
      have hdrop : mws.drop i = mws[i] :: mws.drop (i + 1) :=
        List.drop_eq_getElem_cons hlt
      have hacti : (mws[i]).act = MWAct.passThrough := by
        refine hall _ ?_
        rw [hdrop]
        exact List.mem_cons_self _ _
      have hall2 : ∀ mw ∈ mws.drop (i + 1), mw.act = MWAct.passThrough := by
        intro mw hmw
        refine hall _ ?_
        rw [hdrop]
        exact List.mem_cons_of_mem _ hmw
      simp only [runNext, if_neg hcond, hget, hacti]
      rw [ih (i + 1) i ⟨aset st.ctx "next" (CtxVal.nextAt (i + 1)),
            st.trace ++ [(mws[i]).id]⟩ hall2 (by omega) (by omega) (by omega)]
      rcases Nat.lt_or_ge (i + 1) mws.length with h2 | h2
      · rw [if_pos h2, if_pos hlt, aset_aset, hdrop]
        simp [List.append_assoc]
        exact (drop_map_cons _ _ _ hlt).symm
      · have he2 : i + 1 = mws.length := by omega
        rw [if_neg (by omega), if_pos hlt, hdrop, he2]
        simp [List.append_assoc]
    · have he : i = mws.length := le_antisymm hle hge
      have hget : mws[i]? = none := List.getElem?_eq_none (by omega)
      simp [runNext, if_neg hcond, hget, he, List.drop_length]
      omega

theorem getElem?_of_drop_eq {α : Type} {l : List α} {i : Nat} {a : α}
    {rest : List α} (h : l.drop i = a :: rest) : l[i]? = some a := by
  have h2 := congrArg (fun t => t[0]?) h
  simpa [List.getElem?_drop] using h2

theorem drop_succ_of_drop_eq {α : Type} {l : List α} {i : Nat} {a : α}
    {rest : List α} (h : l.drop i = a :: rest) : l.drop (i + 1) = rest := by
  rw [← List.tail_drop, h, List.tail_cons]

theorem runNext_dup (mws : List MW) (dn : MW) (post : List MW)
    (hdn : dn.act = MWAct.doubleNext)
    (hpost : ∀ mw ∈ post, mw.act = MWAct.passThrough) :
    ∀ (preSeg : List MW) (fuel i : Nat) (index : Int) (st : ExecSt),
      mws.drop i = preSeg ++ dn :: post →
      (∀ mw ∈ preSeg, mw.act = MWAct.passThrough) →
      index < (i : Int) → mws.length + 2 ≤ fuel + i →
      runNext mws fuel index i st =
        (ChainRes.fail dupNextMsg,
         ⟨aset st.ctx "next" (CtxVal.nextAt mws.length),
          st.trace ++ (mws.drop i).map (fun mw => mw.id)⟩) := by
  intro preSeg
  induction preSeg with
  | nil =>
    intro fuel i index st hdrop hpre hidx hf
    have hL : mws.length - i = post.length + 1 := by
      have := congrArg List.length hdrop
      simpa [List.length_drop] using this
    have hil : i < mws.length := by omega
    have hget : mws[i]? = some dn := getElem?_of_drop_eq hdrop
    have hdrop2 : mws.drop (i + 1) = post := drop_succ_of_drop_eq hdrop
    have hcond : ¬ ((i : Int) ≤ index) := by omega
    cases fuel with
    | zero => omega
    | succ f =>
      simp only [runNext, if_neg hcond, hget, hdn]
      rw [runNext_pass mws f (i + 1) i
            ⟨aset st.ctx "next" (CtxVal.nextAt (i + 1)), st.trace ++ [dn.id]⟩
            (by rw [hdrop2]; exact hpost) (by omega) (by omega) (by omega)]
      cases f with
      | zero => omega
      | succ f2 =>
        simp only [runNext, if_pos (show ((i + 1 : Nat) : Int) ≤ (mws.length : Int) by omega)]
        rw [hdrop, hdrop2]
        rcases Nat.lt_or_ge (i + 1) mws.length with h2 | h2
        · rw [if_pos h2, aset_aset]
          simp
        · have he2 : i + 1 = mws.length := by omega
          rw [if_neg (by omega), he2]
          simp
  | cons p preSeg2 ih =>
    intro fuel i index st hdrop hpre hidx hf
    have hget : mws[i]? = some p := getElem?_of_drop_eq hdrop
    have hdrop2 : mws.drop (i + 1) = preSeg2 ++ dn :: post := drop_succ_of_drop_eq hdrop
    have hp : p.act = MWAct.passThrough := hpre _ (List.mem_cons_self _ _)
    have hcond : ¬ ((i : Int) ≤ index) := by omega
    have hL : mws.length - i = preSeg2.length + (post.length + 1) + 1 := by
      have := congrArg List.length hdrop
      simpa [List.length_drop] using this
    cases fuel with
    | zero => omega
    | succ f =>
      simp only [runNext, if_neg hcond, hget, hp]
      rw [ih f (i + 1) i
            ⟨aset st.ctx "next" (CtxVal.nextAt (i + 1)), st.trace ++ [p.id]⟩
            hdrop2 (fun mw hmw => hpre _ (List.mem_cons_of_mem _ hmw))
            (by omega) (by omega)]
      rw [aset_aset, hdrop, hdrop2]
      simp

theorem all_pass_iff (l : List MW) :
    l.all mwIsPass = true ↔ ∀ mw ∈ l, mw.act = MWAct.passThrough := by
  rw [List.all_eq_true]
  constructor
  · intro h mw hmw
    exact (mwIsPass_iff mw).1 (h mw hmw)
  · intro h mw hmw
    exact (mwIsPass_iff mw).2 (h mw hmw)

theorem handleRoute_pass (r : Route) (mws : List MW) (ctx0 : Ctx)
    (hmw : r.middlewareOf = some mws)
    (hpass : ∀ mw ∈ mws, mw.act = MWAct.passThrough) :
    handleRoute r ctx0 =
      (Except.ok (r.handlerOf.respond r.paramsOf),
       aset
         (if 0 < mws.length then
            aset (ctxAssign ctx0 (("next", CtxVal.nextOuter) ::
              r.paramsOf.map (fun kv => (kv.1, CtxVal.str kv.2)))) "next"
              (CtxVal.nextAt mws.length)
          else
            ctxAssign ctx0 (("next", CtxVal.nextOuter) ::
              r.paramsOf.map (fun kv => (kv.1, CtxVal.str kv.2))))
         "params" (CtxVal.pmap r.paramsOf),
       mws.map (fun mw => mw.id) ++ [r.handlerOf.id]) := by
  simp only [handleRoute, hmw]
  rw [runNext_pass mws (mws.length + 2) 0 (-1)
        ⟨ctxAssign ctx0 (("next", CtxVal.nextOuter) ::
           r.paramsOf.map (fun kv => (kv.1, CtxVal.str kv.2))), []⟩
        (by simpa using hpass) (by omega) (by omega) (by omega)]
  simp

theorem handleRoute_dup (r : Route) (pre post : List MW) (dn : MW) (ctx0 : Ctx)
    (hmw : r.middlewareOf = some (pre ++ dn :: post))
    (hpre : ∀ mw ∈ pre, mw.act = MWAct.passThrough)
    (hdn : dn.act = MWAct.doubleNext)
    (hpost : ∀ mw ∈ post, mw.act = MWAct.passThrough) :
    handleRoute r ctx0 =
      (Except.error dupNextMsg,
       aset (ctxAssign ctx0 (("next", CtxVal.nextOuter) ::
          r.paramsOf.map (fun kv => (kv.1, CtxVal.str kv.2)))) "next"
         (CtxVal.nextAt (pre ++ dn :: post).length),
       (pre ++ dn :: post).map (fun mw => mw.id)) := by
  simp only [handleRoute, hmw]
  rw [runNext_dup (pre ++ dn :: post) dn post hdn hpost pre
        ((pre ++ dn :: post).length + 2) 0 (-1)
        ⟨ctxAssign ctx0 (("next", CtxVal.nextOuter) ::
           r.paramsOf.map (fun kv => (kv.1, CtxVal.str kv.2))), []⟩
        (by simp) hpre (by omega) (by omega)]
  simp

theorem handleRoute_pass_fst (r : Route) (mws : List MW) (ctx0 : Ctx)
    (hmw : r.middlewareOf = some mws)
    (hpass : ∀ mw ∈ mws, mw.act = MWAct.passThrough) :
    (handleRoute r ctx0).1 = Except.ok (r.handlerOf.respond r.paramsOf) := by
  rw [handleRoute_pass r mws ctx0 hmw hpass]

theorem handleRoute_pass_trace (r : Route) (mws : List MW) (ctx0 : Ctx)
    (hmw : r.middlewareOf = some mws)
    (hpass : ∀ mw ∈ mws, mw.act = MWAct.passThrough) :
    (handleRoute r ctx0).2.2 = mws.map (fun mw => mw.id) ++ [r.handlerOf.id] := by
  rw [handleRoute_pass r mws ctx0 hmw hpass]

theorem handleRoute_pass_params (r : Route) (mws : List MW) (ctx0 : Ctx)
    (hmw : r.middlewareOf = some mws)
    (hpass : ∀ mw ∈ mws, mw.act = MWAct.passThrough) :
    alookup (handleRoute r ctx0).2.1 "params" = some (CtxVal.pmap r.paramsOf) := by
  rw [handleRoute_pass r mws ctx0 hmw hpass]
  exact alookup_aset_self ..

theorem scanDynRev_none (coll : List MW) (p : String) :
    ∀ l : List DynamicRouteData, (∀ r ∈ l, patternExec r.pattern p = none) →
      scanDynRev coll l p = none := by
  intro l
  induction l with
  | nil => intro h; rfl
  | cons r rest ih =>
    intro h
    have hr : patternExec r.pattern p = none := h _ (List.mem_cons_self _ _)
    simp [scanDynRev, hr, ih (fun x hx => h _ (List.mem_cons_of_mem _ hx))]

theorem scanDynRev_found (coll : List MW) (p : String) (r : DynamicRouteData)
    (ps : List (String × String)) (hm : patternExec r.pattern p = some ps) :
    ∀ (l1 l2 : List DynamicRouteData),
      (∀ x ∈ l1, patternExec x.pattern p = none) →
      scanDynRev coll (l1 ++ r :: l2) p =
        some ({ r with middleware := some coll, params := ps },
              l1 ++ { r with middleware := some coll, params := ps } :: l2) := by
  intro l1
  induction l1 with
  | nil =>
    intro l2 h
    simp [scanDynRev, hm]
  | cons x rest ih =>
    intro l2 h
    have hx : patternExec x.pattern p = none := h _ (List.mem_cons_self _ _)
    simp [scanDynRev, hx, ih l2 (fun y hy => h _ (List.mem_cons_of_mem _ hy))]

theorem chompLit_append (p x : List Char) : chompLit p (p ++ x) = some x := by
  induction p with
  | nil => simp [chompLit]
  | cons c cs ih => simp [chompLit, ih]

theorem takeWhile_append_all {α : Type} (q : α → Bool) :
    ∀ (l1 l2 : List α), (∀ c ∈ l1, q c = true) →
      (l1 ++ l2).takeWhile q = l1 ++ l2.takeWhile q := by
  intro l1
  induction l1 with
  | nil => intro l2 h; simp
  | cons c cs ih =>
    intro l2 h
    have hc : q c = true := h _ (List.mem_cons_self _ _)
    simp [List.takeWhile_cons, hc, ih l2 (fun y hy => h _ (List.mem_cons_of_mem _ hy))]

theorem dropWhile_append_all {α : Type} (q : α → Bool) :
    ∀ (l1 l2 : List α), (∀ c ∈ l1, q c = true) →
      (l1 ++ l2).dropWhile q = l2.dropWhile q := by
  intro l1
  induction l1 with
  | nil => intro l2 h; simp
  | cons c cs ih =>
    intro l2 h
    have hc : q c = true := h _ (List.mem_cons_self _ _)
    simp [List.dropWhile_cons, hc, ih l2 (fun y hy => h _ (List.mem_cons_of_mem _ hy))]

theorem schemeRest_scheme (sch tail2 : List Char)
    (hsch : sch = "http://".toList ∨ sch = "https://".toList) :
    schemeRest (sch ++ tail2) = some tail2 := by
  rcases hsch with h | h
  · subst h
    unfold schemeRest
    rw [chompLit_append]
  · subst h
    have h1 : chompLit ("http://".toList) ("https://".toList ++ tail2) = none := rfl
    unfold schemeRest
    rw [h1, chompLit_append]

theorem extractChars_scheme (sch auth rest : List Char)
    (hsch : sch = "http://".toList ∨ sch = "https://".toList)
    (hne : auth ≠ [])
    (hnoslash : auth.all (fun c => c != '/') = true) :
    extractChars (sch ++ auth ++ '/' :: rest) =
      '/' :: rest.takeWhile (fun c => c != '?') := by
  have hq : ∀ c ∈ auth, (c != '/') = true := List.all_eq_true.1 hnoslash
  have hsr : schemeRest (sch ++ auth ++ '/' :: rest) = some (auth ++ '/' :: rest) := by
    rw [List.append_assoc]
    exact schemeRest_scheme sch (auth ++ '/' :: rest) hsch
  unfold extractChars
  rw [hsr]
  show extractCore (auth ++ '/' :: rest) = '/' :: rest.takeWhile (fun c => c != '?')
  unfold extractCore
  rw [takeWhile_append_all _ auth ('/' :: rest) hq,
      dropWhile_append_all _ auth ('/' :: rest) hq]
  obtain ⟨a, as, rfl⟩ := List.exists_cons_of_ne_nil hne
  simp [List.takeWhile_cons, List.dropWhile_cons]

theorem scanDynRev_middleware (coll : List MW) (p : String) :
    ∀ (l : List DynamicRouteData) (r2 : DynamicRouteData)
      (rev2 : List DynamicRouteData),
      scanDynRev coll l p = some (r2, rev2) → r2.middleware = some coll := by
  intro l
  induction l with
  | nil =>
    intro r2 rev2 h
    simp [scanDynRev] at h
  | cons x rest ih =>
    intro r2 rev2 h
    cases hx : patternExec x.pattern p with
    | some ps =>
      simp [scanDynRev, hx] at h
      rw [← h.1]
    | none =>
      simp [scanDynRev, hx] at h
      obtain ⟨a, b, hab, h1, h2⟩ := h
      exact h1 ▸ ih a b hab

theorem matchRoute_middlewareOf {s : RouterState} {m p : String}
    (hc : alookup2 s.cachedRoutes m p = none) :
    (matchRoute s m p).1.middlewareOf = some (collectMiddleware s.middlewares p) := by
  cases hs : alookup2 s.staticRoutes m p with
  | some sr =>
    rw [matchRoute_static hc hs]
    rfl
  | none =>
    cases hscan : scanDynRev (collectMiddleware s.middlewares p)
        ((alookup s.dynamicRoutes m).getD []).reverse p with
    | some pr =>
      obtain ⟨r2, rev2⟩ := pr
      rw [matchRoute_dynamic hc hs hscan]
      exact scanDynRev_middleware _ _ _ _ _ hscan
    | none =>
      rw [matchRoute_notFound hc hs hscan]
      rfl

theorem alookup_ctxAssign_ne (kvs : List (String × CtxVal)) (k : String)
    (h : ∀ kv ∈ kvs, kv.1 ≠ k) :
    ∀ c : Ctx, alookup (ctxAssign c kvs) k = alookup c k := by
  induction kvs with
  | nil => intro c; rfl
  | cons kv rest ih =>
    intro c
    show alookup (ctxAssign (aset c kv.1 kv.2) rest) k = _
    rw [ih (fun x hx => h x (List.mem_cons_of_mem _ hx))]
    exact alookup_aset_ne _ _ _ _ (Ne.symm (h kv (List.mem_cons_self _ _)))

theorem addRoute_staticRoutes_static (s : RouterState) (m path : String)
    (h : RouteHandler) (hst : isDynamicPath path = false) :
    (addRoute s m path h).staticRoutes =
      aset2 s.staticRoutes m path { method := m, pathname := path, handler := h } := by
  simp [addRoute, hst]

theorem addRoute_staticRoutes_dyn (s : RouterState) (m path : String)
    (h : RouteHandler) (hd : isDynamicPath path = true) :
    (addRoute s m path h).staticRoutes = s.staticRoutes := by
  simp [addRoute, hd]

theorem addRoute_cachedRoutes (s : RouterState) (m path : String)
    (h : RouteHandler) : (addRoute s m path h).cachedRoutes = s.cachedRoutes := by
  by_cases hd : isDynamicPath path <;> simp [addRoute, hd]

theorem addRoute_middlewares (s : RouterState) (m path : String)
    (h : RouteHandler) : (addRoute s m path h).middlewares = s.middlewares := by
  by_cases hd : isDynamicPath path <;> simp [addRoute, hd]

theorem applyAdds_cachedRoutes (ops : List (String × String × RouteHandler)) :
    ∀ s : RouterState, (applyAdds s ops).cachedRoutes = s.cachedRoutes := by
  induction ops with
  | nil => intro s; rfl
  | cons op rest ih =>
    intro s
    show (applyAdds (addRoute s op.1 op.2.1 op.2.2) rest).cachedRoutes = _
    rw [ih, addRoute_cachedRoutes]

theorem applyAdds_middlewares (ops : List (String × String × RouteHandler)) :
    ∀ s : RouterState, (applyAdds s ops).middlewares = s.middlewares := by
  induction ops with
  | nil => intro s; rfl
  | cons op rest ih =>
    intro s
    show (applyAdds (addRoute s op.1 op.2.1 op.2.2) rest).middlewares = _
    rw [ih, addRoute_middlewares]

theorem applyAdds_static_preserve (ops : List (String × String × RouteHandler))
    (m tpl : String) (h : ∀ op ∈ ops, ¬(op.1 = m ∧ op.2.1 = tpl)) :
    ∀ s : RouterState,
      alookup2 (applyAdds s ops).staticRoutes m tpl = alookup2 s.staticRoutes m tpl := by
  induction ops with
  | nil => intro s; rfl
  | cons op rest ih =>
    intro s
    have hop := h op (List.mem_cons_self _ _)
    show alookup2 (applyAdds (addRoute s op.1 op.2.1 op.2.2) rest).staticRoutes m tpl = _
    rw [ih (fun x hx => h x (List.mem_cons_of_mem _ hx))]
    by_cases hd : isDynamicPath op.2.1
    · rw [addRoute_staticRoutes_dyn _ _ _ _ hd]
    · rw [addRoute_staticRoutes_static _ _ _ _ (by simpa using hd)]
      exact alookup2_aset2_ne _ _ _ _ _ _ hop

theorem addRoute_static_self (s : RouterState) (m tpl : String)
    (h : RouteHandler) (hst : isDynamicPath tpl = false) :
    alookup2 (addRoute s m tpl h).staticRoutes m tpl =
      some { method := m, pathname := tpl, handler := h } := by
  rw [addRoute_staticRoutes_static _ _ _ _ hst]
  exact alookup2_aset2_self ..

/-- C1: the claim says that a middleware which returns a response without
invoking next short-circuits the chain, so the terminal handler never runs
and the middleware's response is the dispatch result.  Evaluating the code
on the failing input — the root route with one short-circuiting middleware —
shows `#handleRoute` doing the opposite: after the composed middleware chain
settles it invokes the terminal handler unconditionally (trace [10, 1]
contains the terminal id 1) and returns the terminal's response, discarding
the middleware's distinct response. -/
theorem c1_short_circuit_code_behavior :
    (handleRoute (matchRoute c1router "GET" "/").1 []).1 =
        Except.ok ⟨"from terminal", 200⟩ ∧
    (handleRoute (matchRoute c1router "GET" "/").1 []).2.2 = [10, 1] ∧
    ("from terminal" : String) ≠ "from middleware" :=
  ⟨rfl, rfl, by decide⟩

/-- C2 counterexample: with only GET /x registered, a POST /x dispatch — the
POST method has no dynamic routes at all — resolves to the same synthetic
"Not Found" 404 response as a dispatch of an entirely unregistered path, so
no distinct 405 method-not-allowed response exists, refuting the claim at
this input. -/
theorem c2_not_found_counterexample :
    (handleRoute (matchRoute c2router "POST" "/x").1 []).1 =
        Except.ok ⟨"Not Found", 404⟩ ∧
    (handleRoute (matchRoute c2router "DELETE" "/nowhere").1 []).1 =
        (handleRoute (matchRoute c2router "POST" "/x").1 []).1 ∧
    (404 : Nat) ≠ 405 :=
  ⟨rfl, rfl, by decide⟩

/-- C2 (amended): for every (method, path) with no cache entry, no static
route and no dynamic route of that method matching the path, match resolves
a chain whose terminal is the synthetic not-found route answering the 404
"Not Found" response — both when the method has dynamic routes registered
and when it has none; router.ts draws no 404 versus 405 distinction. -/
theorem c2_unmatched_resolves_not_found (s : RouterState) (m p : String)
    (ctx : Ctx)
    (hc : alookup2 s.cachedRoutes m p = none)
    (hs : alookup2 s.staticRoutes m p = none)
    (hnodyn : ((alookup s.dynamicRoutes m).getD []).all
        (fun r => (patternExec r.pattern p).isNone) = true)
    (hpass : (collectMiddleware s.middlewares p).all mwIsPass = true) :
    (matchRoute s m p).1 =
      Route.stat
        { method := m, pathname := p, handler := notFoundHandler,
          middleware := some (collectMiddleware s.middlewares p) } ∧
    (handleRoute (matchRoute s m p).1 ctx).1 = Except.ok ⟨"Not Found", 404⟩ := by
  have hnone : ∀ r ∈ ((alookup s.dynamicRoutes m).getD []).reverse,
      patternExec r.pattern p = none := by
    intro r hr
    have h1 := List.all_eq_true.1 hnodyn r (List.mem_reverse.1 hr)
    exact Option.isNone_iff_eq_none.1 h1
  have hscan := scanDynRev_none (collectMiddleware s.middlewares p) p _ hnone
  have hm := matchRoute_notFound hc hs hscan
  have hr1 : (matchRoute s m p).1 =
      Route.stat
        { method := m, pathname := p, handler := notFoundHandler,
          middleware := some (collectMiddleware s.middlewares p) } := by
    rw [hm]
  refine ⟨hr1, ?_⟩
  rw [hr1]
  exact handleRoute_pass_fst _ (collectMiddleware s.middlewares p) ctx rfl
    ((all_pass_iff _).1 hpass)

/-- C2 witness: the amended theorem applied at the concrete POST /x dispatch
against the router that only registered GET /x. -/
theorem c2_unmatched_resolves_not_found_witness :
    alookup2 c2router.cachedRoutes "POST" "/x" = none ∧
    alookup2 c2router.staticRoutes "POST" "/x" = none ∧
    ((alookup c2router.dynamicRoutes "POST").getD []).all
      (fun r => (patternExec r.pattern "/x").isNone) = true ∧
    (collectMiddleware c2router.middlewares "/x").all mwIsPass = true ∧
    (handleRoute (matchRoute c2router "POST" "/x").1 []).1 =
      Except.ok ⟨"Not Found", 404⟩ :=
  ⟨rfl, rfl, rfl, rfl,
   (c2_unmatched_resolves_not_found c2router "POST" "/x" [] rfl rfl rfl rfl).2⟩

/-- C3: resolving the same (method, path) twice in succession with no
intervening registration yields the same route both times — on a miss the
second call hits the cache entry the first call stored, on a hit both calls
return the same cached entry — hence chains with identical observable
dispatch behaviour (same middleware list, same terminal handler, same params,
same short-circuit behaviour) on every context. -/
theorem c3_match_idempotent (s : RouterState) (m p : String) :
    matchRoute (matchRoute s m p).2 m p = matchRoute s m p ∧
    ∀ ctx : Ctx,
      handleRoute (matchRoute (matchRoute s m p).2 m p).1 ctx =
        handleRoute (matchRoute s m p).1 ctx := by
  have h := matchRoute_twice s m p
  exact ⟨h, fun ctx => by rw [h]⟩

/-- C4: if a middleware in a composed chain invokes the next capability of
its position a second time within one chain execution, the composer's index
guard rejects the second invocation; the rejection propagates as the failed
dispatch result — a recoverable failure, not a crash — and nothing is
silently re-run: the trace lists each middleware exactly once in chain order
and the terminal handler is never invoked. -/
theorem c4_duplicate_next_rejected (r : Route) (pre post : List MW) (dn : MW)
    (ctx : Ctx)
    (hmw : r.middlewareOf = some (pre ++ dn :: post))
    (hpre : pre.all mwIsPass = true)
    (hdn : dn.act = MWAct.doubleNext)
    (hpost : post.all mwIsPass = true) :
    (handleRoute r ctx).1 = Except.error dupNextMsg ∧
    (handleRoute r ctx).2.2 = (pre ++ dn :: post).map (fun mw => mw.id) := by
  rw [handleRoute_dup r pre post dn ctx hmw ((all_pass_iff _).1 hpre) hdn
        ((all_pass_iff _).1 hpost)]
  exact ⟨rfl, rfl⟩

/-- C4 witness: the concrete chain [pass, doubleNext] in front of the GET /
terminal fails with the duplicate-next rejection; the trace [20, 21] re-runs
nothing and never reaches the terminal handler. -/
theorem c4_duplicate_next_rejected_witness :
    c4route.middlewareOf = some ([c4mwPass] ++ c4mwDup :: []) ∧
    ([c4mwPass].all mwIsPass) = true ∧
    c4mwDup.act = MWAct.doubleNext ∧
    (([] : List MW).all mwIsPass) = true ∧
    (handleRoute c4route []).1 = Except.error dupNextMsg ∧
    (handleRoute c4route []).2.2 =
      ([c4mwPass] ++ c4mwDup :: []).map (fun mw => mw.id) :=
  ⟨rfl, rfl, rfl, rfl,
   (c4_duplicate_next_rejected c4route [c4mwPass] [] c4mwDup [] rfl rfl rfl rfl).1,
   (c4_duplicate_next_rejected c4route [c4mwPass] [] c4mwDup [] rfl rfl rfl rfl).2⟩

/-- C5: when the dynamic scan selects a registered dynamic route (no cache
entry, no static route at the path, and no dynamic route registered after it
matches), the resolved terminal chain carries exactly the matcher's
named-capture map: the route is resolved with those params, dispatch applies
the terminal handler to them, and the context's params property equals the
capture map. -/
theorem c5_dynamic_params (s : RouterState) (m p : String) (ctx : Ctx)
    (r : DynamicRouteData) (ps : List (String × String))
    (dpre dpost : List DynamicRouteData)
    (hc : alookup2 s.cachedRoutes m p = none)
    (hs : alookup2 s.staticRoutes m p = none)
    (hdyn : alookup s.dynamicRoutes m = some (dpre ++ r :: dpost))
    (hm : patternExec r.pattern p = some ps)
    (hlast : dpost.all (fun x => (patternExec x.pattern p).isNone) = true)
    (hpass : (collectMiddleware s.middlewares p).all mwIsPass = true) :
    (matchRoute s m p).1 =
      Route.dyn { r with middleware := some (collectMiddleware s.middlewares p),
                         params := ps } ∧
    (handleRoute (matchRoute s m p).1 ctx).1 =
      Except.ok (r.handler.respond ps) ∧
    alookup (handleRoute (matchRoute s m p).1 ctx).2.1 "params" =
      some (CtxVal.pmap ps) := by
  have hrev : (dpre ++ r :: dpost).reverse = dpost.reverse ++ r :: dpre.reverse := by
    simp
  have hnone : ∀ x ∈ dpost.reverse, patternExec x.pattern p = none := by
    intro x hx
    have h1 := List.all_eq_true.1 hlast x (List.mem_reverse.1 hx)
    exact Option.isNone_iff_eq_none.1 h1
  have hscan : scanDynRev (collectMiddleware s.middlewares p)
      ((alookup s.dynamicRoutes m).getD []).reverse p =
      some ({ r with middleware := some (collectMiddleware s.middlewares p),
                     params := ps },
            dpost.reverse ++
              { r with middleware := some (collectMiddleware s.middlewares p),
                       params := ps } :: dpre.reverse) := by
    rw [hdyn]
    simp only [Option.getD_some]
    rw [hrev]
    exact scanDynRev_found _ _ _ _ hm _ _ hnone
  have hmatch := matchRoute_dynamic hc hs hscan
  have hr1 : (matchRoute s m p).1 =
      Route.dyn { r with middleware := some (collectMiddleware s.middlewares p),
                         params := ps } := by
    rw [hmatch]
  refine ⟨hr1, ?_, ?_⟩
  · rw [hr1]
    exact handleRoute_pass_fst _ (collectMiddleware s.middlewares p) ctx rfl
      ((all_pass_iff _).1 hpass)
  · rw [hr1]
    exact handleRoute_pass_params _ (collectMiddleware s.middlewares p) ctx rfl
      ((all_pass_iff _).1 hpass)

/-- C5 witness: the scenario — register GET /contacts/:name answering
`Contact: {name}`, dispatch /contacts/ada — resolves the contacts route with
the capture map [(name, ada)] and produces the body "Contact: ada". -/
theorem c5_dynamic_params_witness :
    alookup2 c5router.cachedRoutes "GET" "/contacts/ada" = none ∧
    alookup2 c5router.staticRoutes "GET" "/contacts/ada" = none ∧
    alookup c5router.dynamicRoutes "GET" = some ([] ++ c5dynRoute :: []) ∧
    patternExec c5dynRoute.pattern "/contacts/ada" = some [("name", "ada")] ∧
    (handleRoute (matchRoute c5router "GET" "/contacts/ada").1 []).1 =
      Except.ok ⟨"Contact: ada", 200⟩ :=
  ⟨rfl, rfl, rfl, rfl,
   (c5_dynamic_params c5router "GET" "/contacts/ada" [] c5dynRoute
      [("name", "ada")] [] [] rfl rfl rfl rfl rfl rfl).2.1⟩

/-- C6: on a cache miss the resolved route carries exactly the concatenation,
in table order, of the handler lists of every middleware entry whose pattern
matches the path — no matching entry omitted and each entry's append order
preserved — and executing the chain (with pass-through middleware) runs
those handlers in that order strictly before the terminal handler, whichever
kind of terminal route (static, dynamic or the not-found fallback) match
selected. -/
theorem c6_middleware_union_order (s : RouterState) (m p : String) (ctx : Ctx)
    (hc : alookup2 s.cachedRoutes m p = none)
    (hpass : (collectMiddleware s.middlewares p).all mwIsPass = true) :
    (matchRoute s m p).1.middlewareOf =
      some (collectMiddleware s.middlewares p) ∧
    collectMiddleware s.middlewares p =
      ((s.middlewares.filter (fun e => patternTest e.1 p)).map
        (fun e => e.2)).flatten ∧
    (handleRoute (matchRoute s m p).1 ctx).2.2 =
      (collectMiddleware s.middlewares p).map (fun mw => mw.id) ++
        [(matchRoute s m p).1.handlerOf.id] ∧
    (handleRoute (matchRoute s m p).1 ctx).1 =
      Except.ok
        ((matchRoute s m p).1.handlerOf.respond (matchRoute s m p).1.paramsOf) := by
  have hmw := matchRoute_middlewareOf hc
  refine ⟨hmw, collectMiddleware_eq _ _, ?_, ?_⟩
  · exact handleRoute_pass_trace _ (collectMiddleware s.middlewares p) ctx hmw
      ((all_pass_iff _).1 hpass)
  · exact handleRoute_pass_fst _ (collectMiddleware s.middlewares p) ctx hmw
      ((all_pass_iff _).1 hpass)

/-- C6 witness: two middleware handlers appended to the /a entry and one
registered under /b; resolving GET /a includes both /a handlers in append
order, excludes the /b handler, and the trace runs them before the terminal
handler: [60, 61, 6]. -/
theorem c6_middleware_union_order_witness :
    alookup2 c6router.cachedRoutes "GET" "/a" = none ∧
    (collectMiddleware c6router.middlewares "/a").all mwIsPass = true ∧
    collectMiddleware c6router.middlewares "/a" = [c6mw1, c6mw2] ∧
    (handleRoute (matchRoute c6router "GET" "/a").1 []).2.2 = [60, 61, 6] :=
  ⟨rfl, rfl, rfl,
   (c6_middleware_union_order c6router "GET" "/a" [] rfl rfl).2.2.1⟩

/-- C7: a static route registered by add is always selected at its exact
template: after an arbitrary prefix of registrations, the decisive add of the
template, and an arbitrary suffix of registrations never touching the same
(method, template) pair, match on the exact template resolves exactly that
handler as the terminal static route (last registration at the template
wins). -/
theorem c7_static_exact_match (ops1 ops2 : List (String × String × RouteHandler))
    (m tpl : String) (h : RouteHandler)
    (hstatic : isDynamicPath tpl = false)
    (havoid : ops2.all (fun op => !(op.1 == m && op.2.1 == tpl)) = true) :
    (matchRoute (applyAdds emptyRouter (ops1 ++ (m, tpl, h) :: ops2)) m tpl).1 =
      Route.stat
        { method := m, pathname := tpl, handler := h, middleware := some [] } := by
  have havoid2 : ∀ op ∈ ops2, ¬(op.1 = m ∧ op.2.1 = tpl) := by
    intro op hop hcontra
    have h1 := List.all_eq_true.1 havoid op hop
    rw [hcontra.1, hcontra.2] at h1
    simp at h1
  have hc : alookup2
      (applyAdds emptyRouter (ops1 ++ (m, tpl, h) :: ops2)).cachedRoutes m tpl = none := by
    rw [applyAdds_cachedRoutes]
    rfl
  have hfold : applyAdds emptyRouter (ops1 ++ (m, tpl, h) :: ops2) =
      applyAdds (addRoute (applyAdds emptyRouter ops1) m tpl h) ops2 := by
    unfold applyAdds
    rw [List.foldl_append]
    rfl
  have hsl : alookup2
      (applyAdds emptyRouter (ops1 ++ (m, tpl, h) :: ops2)).staticRoutes m tpl =
      some { method := m, pathname := tpl, handler := h } := by
    rw [hfold, applyAdds_static_preserve ops2 m tpl havoid2,
        addRoute_static_self _ _ _ _ hstatic]
  have hmw : (applyAdds emptyRouter (ops1 ++ (m, tpl, h) :: ops2)).middlewares = [] := by
    rw [applyAdds_middlewares]
    rfl
  rw [matchRoute_static hc hsl, hmw]
  rfl

/-- C7 witness: register GET /a twice (old then, later, new), plus unrelated
templates, methods and a dynamic template afterwards; match GET /a selects
the later handler. -/
theorem c7_static_exact_match_witness :
    isDynamicPath "/a" = false ∧
    (c7post.all (fun op => !(op.1 == "GET" && op.2.1 == "/a"))) = true ∧
    (matchRoute (applyAdds emptyRouter (c7pre ++ ("GET", "/a", c7hNew) :: c7post))
        "GET" "/a").1 =
      Route.stat
        { method := "GET", pathname := "/a", handler := c7hNew,
          middleware := some [] } :=
  ⟨rfl, rfl, c7_static_exact_match c7pre c7post "GET" "/a" c7hNew rfl rfl⟩

/-- C8 counterexample: the dispatcher's regex only accepts http and https,
so a URL of another scheme extracts the empty path instead of the substring
after the authority; and a fragment not preceded by a question mark stays in
the extracted path, against the claim that fragments are excluded. -/
theorem c8_path_extraction_counterexample :
    extractPathname "ftp://host/x" = "" ∧ ("" : String) ≠ "/x" ∧
    extractPathname "http://h/p#f" = "/p#f" ∧ ("/p#f" : String) ≠ "/p" :=
  ⟨rfl, by decide, rfl, by decide⟩

/-- C8 (amended): for http and https request URLs with a nonempty slash-free
authority, the dispatcher extracts exactly the substring starting at the
first slash after the authority and ending before the first question mark —
query strings and anything after them (fragments included) are dropped, while
a fragment with no preceding question mark stays in the path — and
dispatches on that path together with the request's method; other schemes
extract the empty path. -/
theorem c8_path_extraction (sch auth rest : List Char) (s : RouterState)
    (m : String) (ctx : Ctx)
    (hsch : sch = "http://".toList ∨ sch = "https://".toList)
    (hne : auth ≠ [])
    (hnoslash : auth.all (fun c => c != '/') = true) :
    extractPathname ⟨sch ++ auth ++ '/' :: rest⟩ =
      ⟨'/' :: rest.takeWhile (fun c => c != '?')⟩ ∧
    handle s ⟨m, ⟨sch ++ auth ++ '/' :: rest⟩⟩ ctx =
      (handleRoute
        (matchRoute s m ⟨'/' :: rest.takeWhile (fun c => c != '?')⟩).1 ctx,
       (matchRoute s m ⟨'/' :: rest.takeWhile (fun c => c != '?')⟩).2) := by
  have h1 : extractPathname ⟨sch ++ auth ++ '/' :: rest⟩ =
      ⟨'/' :: rest.takeWhile (fun c => c != '?')⟩ := by
    unfold extractPathname
    rw [show (String.mk (sch ++ auth ++ '/' :: rest)).toList =
          sch ++ auth ++ '/' :: rest from rfl]
    rw [extractChars_scheme sch auth rest hsch hne hnoslash]
  refine ⟨h1, ?_⟩
  unfold handle
  rw [h1]

/-- C8 witness: the amended theorem at the concrete URL
http://example.com/contacts/ada?q=1 — the extracted path drops the query
string. -/
theorem c8_path_extraction_witness :
    ("http://".toList = "http://".toList ∨ "http://".toList = "https://".toList) ∧
    "example.com".toList ≠ [] ∧
    ("example.com".toList.all (fun c => c != '/')) = true ∧
    extractPathname
        ⟨"http://".toList ++ "example.com".toList ++ '/' :: "contacts/ada?q=1".toList⟩ =
      "/contacts/ada" :=
  ⟨Or.inl rfl, by decide, by decide,
   (c8_path_extraction "http://".toList "example.com".toList
      "contacts/ada?q=1".toList emptyRouter "GET" [] (Or.inl rfl) (by decide)
      (by decide)).1⟩

/-- C9: a match call that misses the cache overwrites the per-method cache
record with a fresh one-key object, so afterwards the method's cache holds
exactly the one just-resolved path and every other path of that method has
no entry — resolving a second distinct path therefore evicts the first. -/
theorem c9_cache_single_entry (s : RouterState) (m p : String)
    (hc : alookup2 s.cachedRoutes m p = none) :
    alookup (matchRoute s m p).2.cachedRoutes m =
      some [(p, (matchRoute s m p).1)] ∧
    ∀ q : String, q ≠ p →
      alookup2 (matchRoute s m p).2.cachedRoutes m q = none := by
  refine ⟨cacheAfterMiss hc, ?_⟩
  intro q hq
  unfold alookup2
  rw [cacheAfterMiss hc]
  simp [alookup, Ne.symm hq]

/-- C9 witness: resolving GET /a on the empty router caches exactly that
path for GET; GET /b has no entry afterwards. -/
theorem c9_cache_single_entry_witness :
    alookup2 emptyRouter.cachedRoutes "GET" "/a" = none ∧
    alookup (matchRoute emptyRouter "GET" "/a").2.cachedRoutes "GET" =
      some [("/a", (matchRoute emptyRouter "GET" "/a").1)] ∧
    alookup2 (matchRoute emptyRouter "GET" "/a").2.cachedRoutes "GET" "/b" = none :=
  ⟨rfl, (c9_cache_single_entry emptyRouter "GET" "/a" rfl).1,
   (c9_cache_single_entry emptyRouter "GET" "/a" rfl).2 "/b" (by decide)⟩

/-- C10: a dispatch writes through the caller's context cell rather than
copying it: the final context equals the caller's context with the next
capabilities, the spread parameter strings and the params map assigned onto
it in execution order, so the params map (and the last next binding) remain
observable on the caller's object after dispatch returns; every key the
dispatch does not assign keeps its caller-supplied value. -/
theorem c10_context_mutated_in_place (r : Route) (mws : List MW) (ctx0 : Ctx)
    (hmw : r.middlewareOf = some mws)
    (hpass : mws.all mwIsPass = true) :
    (handleRoute r ctx0).2.1 =
      aset
        (if 0 < mws.length then
           aset (ctxAssign ctx0 (("next", CtxVal.nextOuter) ::
             r.paramsOf.map (fun kv => (kv.1, CtxVal.str kv.2)))) "next"
             (CtxVal.nextAt mws.length)
         else
           ctxAssign ctx0 (("next", CtxVal.nextOuter) ::
             r.paramsOf.map (fun kv => (kv.1, CtxVal.str kv.2))))
        "params" (CtxVal.pmap r.paramsOf) ∧
    alookup (handleRoute r ctx0).2.1 "params" = some (CtxVal.pmap r.paramsOf) ∧
    ∀ k : String, k ≠ "next" → k ≠ "params" →
      (r.paramsOf.all (fun kv => !(kv.1 == k))) = true →
      alookup (handleRoute r ctx0).2.1 k = alookup ctx0 k := by
  rw [handleRoute_pass r mws ctx0 hmw ((all_pass_iff _).1 hpass)]
  refine ⟨rfl, alookup_aset_self .., ?_⟩
  intro k hk1 hk2 hk3
  have hkvs : ∀ kv ∈ (("next", CtxVal.nextOuter) ::
      r.paramsOf.map (fun kv => (kv.1, CtxVal.str kv.2))), kv.1 ≠ k := by
    intro kv hkv
    rcases List.mem_cons.1 hkv with h | h
    · rw [h]
      exact Ne.symm hk1
    · obtain ⟨pv, hpv, hpe⟩ := List.mem_map.1 h
      have h2 := List.all_eq_true.1 hk3 pv hpv
      rw [← hpe]
      simpa using h2
  rw [alookup_aset_ne _ _ _ _ hk2]
  by_cases hlen : 0 < mws.length
  · rw [if_pos hlen, alookup_aset_ne _ _ _ _ hk1]
    exact alookup_ctxAssign_ne _ _ hkvs ctx0
  · rw [if_neg hlen]
    exact alookup_ctxAssign_ne _ _ hkvs ctx0

/-- C10 witness: dispatching the resolved /u/:who route against the context
[(user, u)] leaves params = [(who, ada)] observable on the caller's context
and preserves the untouched user property. -/
theorem c10_context_mutated_in_place_witness :
    c10route.middlewareOf = some [⟨80, MWAct.passThrough⟩] ∧
    (([⟨80, MWAct.passThrough⟩] : List MW).all mwIsPass) = true ∧
    alookup (handleRoute c10route c10ctx).2.1 "params" =
      some (CtxVal.pmap [("who", "ada")]) ∧
    alookup (handleRoute c10route c10ctx).2.1 "user" = alookup c10ctx "user" :=
  ⟨rfl, rfl,
   (c10_context_mutated_in_place c10route [⟨80, MWAct.passThrough⟩] c10ctx
      rfl rfl).2.1,
   (c10_context_mutated_in_place c10route [⟨80, MWAct.passThrough⟩] c10ctx
      rfl rfl).2.2 "user" (by decide) (by decide) rfl⟩

end URLRouter
